import Mathlib

/-! Shallow embedding of the offline-resilient message delivery subsystem of
the chat application: the IndexedDB-backed `OfflineStorage` wrapper
(messages store, users store, offlineQueue store), the queue drain run on
reconnect (`handleOnline` in App.js), the send path and snapshot merge of
ChatWindow.js, the notification firing condition, and the conversation-id
derivation of ChatDashboard.js.  Machine state (the IndexedDB contents, the
remote Firestore collections, the React `messages` list) is passed
explicitly; timestamps are epoch milliseconds modelled as `Int`; remote
server-assigned document ids are modelled by a counter. -/

/-- Message payload as assembled by `sendMessage` / `handleImageUpload` in
ChatWindow.js: content, senderId, receiverId, a client timestamp (epoch
milliseconds, `new Date()`), a type tag (text or image), an optional
fileName (present only for image sends) and the chatId. -/
structure MsgData where
  content : String
  senderId : String
  receiverId : String
  timestamp : Int
  type : String
  fileName : Option String
  chatId : String
deriving DecidableEq

/-- A record of the `offlineQueue` object store: the queued payload together
with the auto-increment key `id`, the enqueue-time timestamp and the status
tag, exactly the object built by `OfflineStorage.queueMessage`. -/
structure QueueRecord where
  id : Nat
  content : String
  senderId : String
  receiverId : String
  timestamp : Int
  type : String
  fileName : Option String
  chatId : String
  status : String
deriving DecidableEq

/-- A record of the `messages` object store (keyPath `id`, secondary index on
`chatId`). -/
structure CachedMsg where
  id : String
  chatId : String
  timestamp : Int
  content : String
  senderId : String
  receiverId : String
  type : String
deriving DecidableEq

/-- The `OfflineStorage` IndexedDB database: the messages store, the
offlineQueue store and the queue's auto-increment key counter.  The users
store is not needed by any claim and is omitted. -/
structure OfflineStorage where
  messages : List CachedMsg
  offlineQueue : List QueueRecord
  nextQueueId : Nat
deriving DecidableEq

/-- IndexedDB `put` on the messages store (keyPath `id`): overwrites the
record whose primary key equals `m.id` when one exists, otherwise inserts. -/
def putMessage (db : List CachedMsg) (m : CachedMsg) : List CachedMsg :=
  if db.any (fun r => r.id == m.id) then
    db.map (fun r => if r.id == m.id then m else r)
  else db ++ [m]

/-- `OfflineStorage.storeMessages(chatId, messages)`: first deletes every
record whose `chatId` index matches (`getAllKeys` on the index, then
`delete`), then `put`s each given message with its `chatId` field overridden
to the target conversation.  The Firestore `timestamp.toDate()` conversion
preserves the instant and is the identity on the numeric timestamp. -/
def OfflineStorage.storeMessages (st : OfflineStorage) (chatId : String)
    (msgs : List CachedMsg) : OfflineStorage :=
  let base := st.messages.filter (fun r => r.chatId != chatId)
  let updated :=
    msgs.foldl (fun db m => putMessage db { m with chatId := chatId }) base
  { st with messages := updated }

/-- Timestamp order on cached messages: the JS comparator
`new Date(a.timestamp) - new Date(b.timestamp)` sorts ascending by the
numeric timestamp. -/
def tsLe (a b : CachedMsg) : Prop := a.timestamp ≤ b.timestamp

instance : DecidableRel tsLe := fun a b =>
  inferInstanceAs (Decidable (a.timestamp ≤ b.timestamp))

instance : IsTotal CachedMsg tsLe := ⟨fun a b => le_total a.timestamp b.timestamp⟩

instance : IsTrans CachedMsg tsLe := ⟨fun _ _ _ => le_trans⟩

/-- `OfflineStorage.getMessages(chatId)`: `getAll` on the `chatId` index,
then sorted ascending by timestamp.  JS `Array.prototype.sort` with a
consistent comparator is a stable sort; it is modelled by insertion sort,
which is stable for the same total preorder. -/
def OfflineStorage.getMessages (st : OfflineStorage) (chatId : String) :
    List CachedMsg :=
  List.insertionSort tsLe (st.messages.filter (fun r => r.chatId == chatId))

/-- `OfflineStorage.queueMessage(message)`: spreads the message, overriding
`timestamp` with the enqueue wall-clock time (`Date.now()`, the `now`
argument) and `status` with `"queued"`, `add`s it to the offlineQueue store
(which assigns the auto-increment key) and returns the stored record
including that key. -/
def OfflineStorage.queueMessage (st : OfflineStorage) (m : MsgData)
    (now : Int) : QueueRecord × OfflineStorage :=
  let stored : QueueRecord :=
    { id := st.nextQueueId, content := m.content, senderId := m.senderId,
      receiverId := m.receiverId, timestamp := now, type := m.type,
      fileName := m.fileName, chatId := m.chatId, status := "queued" }
  (stored,
   { st with offlineQueue := st.offlineQueue ++ [stored],
             nextQueueId := st.nextQueueId + 1 })

/-- `OfflineStorage.getQueuedMessages()`: `getAll` on the offlineQueue store,
insertion order, across all conversations. -/
def OfflineStorage.getQueuedMessages (st : OfflineStorage) : List QueueRecord :=
  st.offlineQueue

/-- `OfflineStorage.clearQueuedMessage(id)`: deletes the record with that
key; a no-op when absent. -/
def OfflineStorage.clearQueuedMessage (st : OfflineStorage) (id : Nat) :
    OfflineStorage :=
  { st with offlineQueue := st.offlineQueue.filter (fun r => r.id != id) }

/-- A document of a remote `chats/{chatId}/messages` collection.  `id` is the
server-assigned document id (modelled by a counter), `chatId` names the
collection the document was added to, `timestamp` is the server timestamp
assigned at write time. -/
structure RemoteDoc where
  id : Nat
  chatId : String
  content : String
  senderId : String
  receiverId : String
  timestamp : Int
  type : String
  fileName : Option String
deriving DecidableEq

/-- The remote document store: all message documents plus the counter for
fresh server-assigned document ids. -/
structure Remote where
  docs : List RemoteDoc
  nextDocId : Nat
deriving DecidableEq

/-- Firestore `addDoc` on `chats/{chatId}/messages`: creates a document with
a fresh server-assigned id. -/
def Remote.addDoc (rm : Remote) (chatId content senderId receiverId : String)
    (t : Int) (type : String) (fileName : Option String) : Remote :=
  { docs := rm.docs ++
      [{ id := rm.nextDocId, chatId := chatId, content := content,
         senderId := senderId, receiverId := receiverId, timestamp := t,
         type := type, fileName := fileName }],
    nextDocId := rm.nextDocId + 1 }

/-- Combined application state for the reconciliation engine: the remote
store and the local IndexedDB. -/
structure AppState where
  remote : Remote
  storage : OfflineStorage
deriving DecidableEq

/-- The drain loop of `handleOnline` (App.js): for each record of the queue
snapshot, attempt `addDoc` with the record's content, senderId, receiverId, a
fresh server timestamp, type and fileName; on success remove the record from
the queue; on failure (the per-record try/catch) leave it untouched and
continue with the remaining records.  `ok` tells whether the remote write for
a given record succeeds. -/
def processQueued (ok : QueueRecord → Bool) (t : Int) :
    List QueueRecord → AppState → AppState
  | [], s => s
  | r :: rs, s =>
    if ok r then
      processQueued ok t rs
        { remote := s.remote.addDoc r.chatId r.content r.senderId
            r.receiverId t r.type r.fileName,
          storage := s.storage.clearQueuedMessage r.id }
    else processQueued ok t rs s

/-- `handleOnline` (App.js): reads all queued records once
(`getQueuedMessages`) and then runs the drain loop over that snapshot. -/
def handleOnline (ok : QueueRecord → Bool) (t : Int) (s : AppState) :
    AppState :=
  processQueued ok t s.storage.getQueuedMessages s

/-- The remote document written for a queue record during the drain. -/
def mkDoc (docId : Nat) (r : QueueRecord) (t : Int) : RemoteDoc :=
  { id := docId, chatId := r.chatId, content := r.content,
    senderId := r.senderId, receiverId := r.receiverId, timestamp := t,
    type := r.type, fileName := r.fileName }

/-- The documents a drain pass appends for a list of successfully written
records, ids assigned consecutively from `start`. -/
def drainDocs (start : Nat) (t : Int) : List QueueRecord → List RemoteDoc
  | [] => []
  | r :: rs => mkDoc start r t :: drainDocs (start + 1) t rs

/-- ChatWindow.js notification decision (the `shouldShowNotification`
expression): fire when the document is not focused, or when
`window.currentActiveChatId` is set (truthy) and differs from this chat, or
when the `forceNotifications` localStorage flag is `"true"`.  The active chat
id is `Option`-valued: `none` models the global being null/undefined. -/
def shouldShowNotification (hasFocus : Bool) (activeChatId : Option String)
    (chatId : String) (force : Bool) : Bool :=
  !hasFocus ||
    (match activeChatId with
     | none => false
     | some a => chatId != a) ||
    force

/-- The notification call site in ChatWindow.js guards on
`shouldShowNotification && notificationPermission`: a user-visible
notification fires only when the decision holds and permission was granted. -/
def notificationFired (perm : Bool) (hasFocus : Bool)
    (activeChatId : Option String) (chatId : String) (force : Bool) : Bool :=
  shouldShowNotification hasFocus activeChatId chatId force && perm

/-- Follows the spec's words (for comparison with the code's decision): fire
when the document is not focused, OR the message's conversation id differs
from the currently active conversation id, OR the explicit override is set. -/
def specNotificationFireCond (hasFocus : Bool) (activeChatId : Option String)
    (chatId : String) (force : Bool) : Prop :=
  hasFocus = false ∨ activeChatId ≠ some chatId ∨ force = true

instance (hasFocus : Bool) (activeChatId : Option String) (chatId : String)
    (force : Bool) :
    Decidable (specNotificationFireCond hasFocus activeChatId chatId force) :=
  inferInstanceAs (Decidable (_ ∨ _ ∨ _))

/-- Conversation-id derivation of `handleSelectChat` and `filteredUsers`
(ChatDashboard.js): the two participant ids sorted (JS default lexicographic
sort of the two-element array) and joined with an underscore. -/
def chatDocId (a b : String) : String :=
  if a ≤ b then a ++ "_" ++ b else b ++ "_" ++ a

/-- C9: Conversation-id derivation is symmetric and deterministic: the id
computed by sorting the pair and joining is the same from (a, b) and from
(b, a), so both peers derive the same conversation id without a handshake. -/
theorem chatDocId_comm (a b : String) : chatDocId a b = chatDocId b a := by
  unfold chatDocId
  rcases lt_trichotomy a b with h | h | h
  · rw [if_pos h.le, if_neg (not_le.mpr h)]
  · subst h; simp
  · rw [if_neg (not_le.mpr h), if_pos h.le]

/-- C10: queueMessage discards the caller-supplied timestamp in favour of the
enqueue wall-clock time, sets status to "queued", returns the stored record
including the auto-generated sequence id (the returned record is exactly the
record appended to the queue), and preserves every other caller-supplied
field unchanged; the messages store is untouched. -/
theorem queueMessage_spec (st : OfflineStorage) (m : MsgData) (now : Int) :
    ((st.queueMessage m now).1.timestamp = now) ∧
    ((st.queueMessage m now).1.status = "queued") ∧
    ((st.queueMessage m now).1.id = st.nextQueueId) ∧
    ((st.queueMessage m now).1.content = m.content) ∧
    ((st.queueMessage m now).1.senderId = m.senderId) ∧
    ((st.queueMessage m now).1.receiverId = m.receiverId) ∧
    ((st.queueMessage m now).1.type = m.type) ∧
    ((st.queueMessage m now).1.fileName = m.fileName) ∧
    ((st.queueMessage m now).1.chatId = m.chatId) ∧
    ((st.queueMessage m now).2.offlineQueue =
      st.offlineQueue ++ [(st.queueMessage m now).1]) ∧
    ((st.queueMessage m now).2.messages = st.messages) ∧
    ((st.queueMessage m now).2.nextQueueId = st.nextQueueId + 1) := by
  refine ⟨rfl, rfl, rfl, rfl, rfl, rfl, rfl, rfl, rfl, rfl, rfl, rfl⟩

/-- C8 counterexample: with notification permission granted, the document
focused, no force override and no currently active conversation id
(`window.currentActiveChatId` null), the spec's literal firing condition
holds (the message's conversation id differs from the absent active id) yet
the code suppresses the notification, because the code additionally requires
the active chat id to be truthy. -/
theorem notification_fire_cex :
    specNotificationFireCond true none "alice_bob" false ∧
    notificationFired true true none "alice_bob" false = false := by
  constructor
  · exact Or.inr (Or.inl (by simp))
  · rfl

/-- C8 (amended): for every notification candidate, a user-visible
notification fires if and only if notification permission is granted and
(the document is not focused, or an active conversation id is set and
differs from the message's conversation id, or the force-notifications
override is set). -/
theorem notificationFired_iff (perm hasFocus : Bool)
    (activeChatId : Option String) (chatId : String) (force : Bool) :
    notificationFired perm hasFocus activeChatId chatId force = true ↔
      (perm = true ∧ (hasFocus = false ∨
        (∃ a, activeChatId = some a ∧ a ≠ chatId) ∨ force = true)) := by
  cases perm <;> cases hasFocus <;> cases force <;>
    cases activeChatId <;>
      simp [notificationFired, shouldShowNotification, bne_iff_ne, ne_comm]

/-- C5: getMessages returns the cached messages of the conversation sorted
ascending by timestamp regardless of the order they were stored in (the
result is a permutation of the records indexed under the conversation id, in
timestamp order), and it is the empty sequence exactly when no messages are
cached for that conversation. -/
theorem getMessages_sorted_spec (st : OfflineStorage) (chatId : String) :
    List.Sorted tsLe (st.getMessages chatId) ∧
    List.Perm (st.getMessages chatId)
      (st.messages.filter (fun r => r.chatId == chatId)) ∧
    (st.getMessages chatId = [] ↔
      st.messages.filter (fun r => r.chatId == chatId) = []) := by
  refine ⟨List.sorted_insertionSort tsLe _, List.perm_insertionSort tsLe _, ?_⟩
  constructor
  · intro h
    exact ((List.perm_insertionSort tsLe _).symm.trans (h ▸ List.Perm.refl _)).eq_nil
  · intro h
    exact ((List.perm_insertionSort tsLe _).trans (h ▸ List.Perm.refl _)).eq_nil

/-- Every document produced by a drain pass carries an id at least the
starting counter value. -/
lemma drainDocs_mem_id (t : Int) :
    ∀ (rs : List QueueRecord) (start : Nat),
      ∀ d ∈ drainDocs start t rs, start ≤ d.id := by
  intro rs
  induction rs with
  | nil => intro start d hd; simp [drainDocs] at hd
  | cons r rs ih =>
    intro start d hd
    rcases List.mem_cons.mp hd with hd | hd
    · subst hd; exact le_refl _
    · exact le_trans (Nat.le_succ start) (ih (start + 1) d hd)

/-- The drain pass writes exactly one document with the i-th fresh id, and it
carries the i-th record's payload. -/
lemma drainDocs_filter_id (t : Int) :
    ∀ (rs : List QueueRecord) (start i : Nat) (h : i < rs.length),
      (drainDocs start t rs).filter (fun d => d.id == start + i) =
        [mkDoc (start + i) (rs.get ⟨i, h⟩) t] := by
  intro rs
  induction rs with
  | nil => intro start i h; simp at h
  | cons r rs ih =>
    intro start i h
    cases i with
    | zero =>
      simp only [Nat.add_zero]
      have hhead : ((mkDoc start r t).id == start) = true := by
        simp [mkDoc]
      have htail : (drainDocs (start + 1) t rs).filter
          (fun d => d.id == start) = [] := by
        refine List.filter_eq_nil_iff.mpr ?_
        intro d hd
        have hge := drainDocs_mem_id t rs (start + 1) d hd
        simp only [beq_iff_eq]
        omega
      simp only [drainDocs, List.filter_cons, hhead, if_true, htail]
      rfl
    | succ i =>
      have hlen : i < rs.length := Nat.lt_of_succ_lt_succ h
      have hhead : ((mkDoc start r t).id == start + (i + 1)) = false := by
        simp [mkDoc]
      simp only [drainDocs, List.filter_cons, hhead, Bool.false_eq_true,
        if_false]
      have harith : start + (i + 1) = (start + 1) + i := by omega
      rw [harith, ih (start + 1) i hlen]
      rfl

/-- The drain pass appends, to the remote store, exactly one document per
successfully written record (in queue order, with consecutively assigned
server document ids) and leaves previously stored documents in place. -/
lemma processQueued_remote (ok : QueueRecord → Bool) (t : Int) :
    ∀ (rs : List QueueRecord) (s : AppState),
      (processQueued ok t rs s).remote.docs =
        s.remote.docs ++ drainDocs s.remote.nextDocId t (rs.filter ok) ∧
      (processQueued ok t rs s).remote.nextDocId =
        s.remote.nextDocId + (rs.filter ok).length := by
  intro rs
  induction rs with
  | nil => intro s; simp [processQueued, drainDocs]
  | cons r rs ih =>
    intro s
    by_cases h : ok r = true
    · obtain ⟨h1, h2⟩ := ih
        { remote := s.remote.addDoc r.chatId r.content r.senderId
            r.receiverId t r.type r.fileName,
          storage := s.storage.clearQueuedMessage r.id }
      constructor
      · rw [processQueued, if_pos h, h1]
        simp [Remote.addDoc, List.filter_cons_of_pos h, drainDocs, mkDoc,
          List.append_assoc]
      · rw [processQueued, if_pos h, h2]
        simp [Remote.addDoc, List.filter_cons_of_pos h]
        omega
    · obtain ⟨h1, h2⟩ := ih s
      rw [processQueued, if_neg h, h1, h2, List.filter_cons_of_neg h]
      exact ⟨rfl, rfl⟩

/-- After a drain pass over snapshot `rs`, the live queue retains exactly the
records whose id was not cleared, i.e. whose id matches no successfully
written snapshot record. -/
lemma processQueued_offlineQueue (ok : QueueRecord → Bool) (t : Int) :
    ∀ (rs : List QueueRecord) (s : AppState),
      (processQueued ok t rs s).storage.offlineQueue =
        s.storage.offlineQueue.filter
          (fun q => decide (∀ r ∈ rs.filter ok, q.id ≠ r.id)) := by
  intro rs
  induction rs with
  | nil => intro s; simp [processQueued]
  | cons r rs ih =>
    intro s
    by_cases h : ok r = true
    · rw [processQueued, if_pos h, ih]
      simp only [OfflineStorage.clearQueuedMessage, List.filter_filter,
        List.filter_cons_of_pos h]
      refine List.filter_congr ?_
      intro q _
      by_cases hq : q.id = r.id <;>
        simp [List.forall_mem_cons, Bool.and_comm, hq]
    · rw [processQueued, if_neg h, ih, List.filter_cons_of_neg h]

/-- A sequence of sends issued while offline: each send persists its payload
via `queueMessage` with its own enqueue time (`Date.now()`). -/
def queueAll : OfflineStorage → List (MsgData × Int) → OfflineStorage
  | st, [] => st
  | st, (m, now) :: rest => queueAll (st.queueMessage m now).2 rest

/-- The queue records produced by a sequence of offline sends, ids assigned
consecutively from `qid`. -/
def queuedRecords (qid : Nat) : List (MsgData × Int) → List QueueRecord
  | [] => []
  | (m, now) :: rest =>
    { id := qid, content := m.content, senderId := m.senderId,
      receiverId := m.receiverId, timestamp := now, type := m.type,
      fileName := m.fileName, chatId := m.chatId, status := "queued" } ::
      queuedRecords (qid + 1) rest

lemma queuedRecords_length (qid : Nat) (sends : List (MsgData × Int)) :
    (queuedRecords qid sends).length = sends.length := by
  induction sends generalizing qid with
  | nil => rfl
  | cons p rest ih => obtain ⟨m, now⟩ := p; simp [queuedRecords, ih]

lemma queuedRecords_get (sends : List (MsgData × Int)) :
    ∀ (qid i : Nat) (h : i < sends.length)
      (h2 : i < (queuedRecords qid sends).length),
      (queuedRecords qid sends).get ⟨i, h2⟩ =
        { id := qid + i, content := (sends.get ⟨i, h⟩).1.content,
          senderId := (sends.get ⟨i, h⟩).1.senderId,
          receiverId := (sends.get ⟨i, h⟩).1.receiverId,
          timestamp := (sends.get ⟨i, h⟩).2,
          type := (sends.get ⟨i, h⟩).1.type,
          fileName := (sends.get ⟨i, h⟩).1.fileName,
          chatId := (sends.get ⟨i, h⟩).1.chatId, status := "queued" } := by
  induction sends with
  | nil => intro qid i h h2; simp at h
  | cons p rest ih =>
    obtain ⟨m, now⟩ := p
    intro qid i h h2
    cases i with
    | zero => simp [queuedRecords]
    | succ i =>
      have hlen : i < rest.length := Nat.lt_of_succ_lt_succ h
      have harith : qid + (i + 1) = (qid + 1) + i := by omega
      have h2' : i < (queuedRecords (qid + 1) rest).length := by
        rw [queuedRecords_length]; exact hlen
      have := ih (qid + 1) i hlen h2'
      simp only [queuedRecords, List.get_cons_succ, this, harith]

/-- Queueing a sequence of sends appends one record per send, in order, with
consecutive auto-increment ids; the messages store is untouched. -/
lemma queueAll_spec (sends : List (MsgData × Int)) :
    ∀ st : OfflineStorage,
      (queueAll st sends).offlineQueue =
        st.offlineQueue ++ queuedRecords st.nextQueueId sends ∧
      (queueAll st sends).nextQueueId = st.nextQueueId + sends.length ∧
      (queueAll st sends).messages = st.messages := by
  induction sends with
  | nil => intro st; simp [queueAll, queuedRecords]
  | cons p rest ih =>
    obtain ⟨m, now⟩ := p
    intro st
    obtain ⟨h1, h2, h3⟩ := ih (st.queueMessage m now).2
    refine ⟨?_, ?_, ?_⟩
    · rw [queueAll, h1]
      simp [OfflineStorage.queueMessage, queuedRecords, List.append_assoc]
    · rw [queueAll, h2]
      simp [OfflineStorage.queueMessage]
      omega
    · rw [queueAll, h3]
      rfl

/-- C1: For every sequence of message sends issued while offline (each
persisted via queueMessage into an initially empty queue), after the next
online transition triggers the drain and every remote write in that drain
succeeds, each queued message appears exactly once in the remote store —
exactly one document carries the i-th send's fresh server id, and it holds
that send's original content, senderId and receiverId — and every queue
record is removed. -/
theorem drain_delivers_each_send_once
    (sends : List (MsgData × Int)) (rm : Remote) (st0 : OfflineStorage)
    (ok : QueueRecord → Bool) (t : Int) (i : Nat)
    (hq : st0.offlineQueue = [])
    (hfresh : ∀ d ∈ rm.docs, d.id < rm.nextDocId)
    (hok : ∀ r, ok r = true)
    (hi : i < sends.length) :
    (handleOnline ok t ⟨rm, queueAll st0 sends⟩).storage.offlineQueue = [] ∧
    (handleOnline ok t ⟨rm, queueAll st0 sends⟩).remote.docs.filter
        (fun d => d.id == rm.nextDocId + i) =
      [{ id := rm.nextDocId + i,
         chatId := (sends.get ⟨i, hi⟩).1.chatId,
         content := (sends.get ⟨i, hi⟩).1.content,
         senderId := (sends.get ⟨i, hi⟩).1.senderId,
         receiverId := (sends.get ⟨i, hi⟩).1.receiverId,
         timestamp := t,
         type := (sends.get ⟨i, hi⟩).1.type,
         fileName := (sends.get ⟨i, hi⟩).1.fileName }] := by
  have hQ : (queueAll st0 sends).offlineQueue =
      queuedRecords st0.nextQueueId sends := by
    rw [(queueAll_spec sends st0).1, hq, List.nil_append]
  constructor
  · rw [handleOnline, processQueued_offlineQueue]
    refine List.filter_eq_nil_iff.mpr ?_
    intro q hqmem
    simp only [decide_eq_true_eq]
    intro hall
    exact hall q (List.mem_filter.mpr ⟨hqmem, hok q⟩) rfl
  · rw [handleOnline]
    rw [(processQueued_remote ok t
      ((⟨rm, queueAll st0 sends⟩ : AppState).storage.getQueuedMessages)
      ⟨rm, queueAll st0 sends⟩).1]
    have hfilterok :
        ((⟨rm, queueAll st0 sends⟩ : AppState).storage.getQueuedMessages).filter
            ok = queuedRecords st0.nextQueueId sends := by
      rw [List.filter_eq_self.mpr (fun a _ => hok a)]
      simpa [OfflineStorage.getQueuedMessages] using hQ
    rw [hfilterok, List.filter_append]
    have hold : rm.docs.filter (fun d => d.id == rm.nextDocId + i) = [] := by
      refine List.filter_eq_nil_iff.mpr ?_
      intro d hd
      have hlt := hfresh d hd
      simp only [beq_iff_eq]
      omega
    have hlen2 : i < (queuedRecords st0.nextQueueId sends).length := by
      rw [queuedRecords_length]; exact hi
    rw [hold, drainDocs_filter_id t _ rm.nextDocId i hlen2, List.nil_append,
      queuedRecords_get sends st0.nextQueueId i hi hlen2]
    rfl

/-- Witness for C1 at a concrete offline session: one send of "hi" from
alice to bob, drained with every write succeeding. -/
theorem drain_delivers_each_send_once_witness :
    (handleOnline (fun _ => true) 100
        ⟨⟨[], 0⟩,
         queueAll ⟨[], [], 1⟩
           [(⟨"hi", "alice", "bob", 5, "text", none, "alice_bob"⟩, 5)]⟩).storage.offlineQueue
        = [] ∧
    (handleOnline (fun _ => true) 100
        ⟨⟨[], 0⟩,
         queueAll ⟨[], [], 1⟩
           [(⟨"hi", "alice", "bob", 5, "text", none, "alice_bob"⟩, 5)]⟩).remote.docs.filter
        (fun d => d.id == 0 + 0) =
      [{ id := 0 + 0, chatId := "alice_bob", content := "hi",
         senderId := "alice", receiverId := "bob", timestamp := 100,
         type := "text", fileName := none }] :=
  drain_delivers_each_send_once
    [(⟨"hi", "alice", "bob", 5, "text", none, "alice_bob"⟩, 5)]
    ⟨[], 0⟩ ⟨[], [], 1⟩ (fun _ => true) 100 0 rfl (by simp) (fun _ => rfl)
    (by simp)

/-- When every remote write succeeds, a drain pass clears the whole queue. -/
lemma handleOnline_queue_empty (ok : QueueRecord → Bool) (t : Int)
    (s : AppState) (hok : ∀ r, ok r = true) :
    (handleOnline ok t s).storage.offlineQueue = [] := by
  rw [handleOnline, processQueued_offlineQueue]
  refine List.filter_eq_nil_iff.mpr ?_
  intro q hq
  simp only [decide_eq_true_eq]
  intro hall
  exact hall q (List.mem_filter.mpr ⟨hq, hok q⟩) rfl

/-- With pairwise distinct queue ids (as IndexedDB auto-increment
guarantees), a drain pass leaves in the queue exactly the records whose
write failed. -/
lemma handleOnline_queue_filter (ok : QueueRecord → Bool) (t : Int)
    (s : AppState)
    (hnd : (s.storage.offlineQueue.map (fun r => r.id)).Nodup) :
    (handleOnline ok t s).storage.offlineQueue =
      s.storage.offlineQueue.filter (fun r => !(ok r)) := by
  rw [handleOnline, processQueued_offlineQueue]
  refine List.filter_congr ?_
  intro q hq
  by_cases hok : ok q = true
  · simp only [hok, Bool.not_true, decide_eq_false_iff_not]
    intro hall
    exact hall q (List.mem_filter.mpr ⟨hq, hok⟩) rfl
  · have hokf : ok q = false := by
      revert hok; cases ok q <;> simp
    simp only [hokf, Bool.not_false, decide_eq_true_eq]
    intro r hr
    have hrq : r ∈ s.storage.offlineQueue := (List.mem_filter.mp hr).1
    have hokr : ok r = true := (List.mem_filter.mp hr).2
    intro hid
    have heq : q = r := List.inj_on_of_nodup_map hnd hq hrq hid
    rw [← heq] at hokr
    rw [hokr] at hokf
    exact Bool.noConfusion hokf

/-- C3: Drain failure isolation: in one drain pass, a record whose remote
write fails stays in the queue unchanged and does not stop the remaining
records from being attempted, while every record whose write succeeds is
cleared from the queue and its payload is appended to the remote store (in
queue order).  The queue ids are pairwise distinct, as IndexedDB
auto-increment guarantees. -/
theorem drain_failure_isolation (ok : QueueRecord → Bool) (t : Int)
    (s : AppState)
    (hnd : (s.storage.offlineQueue.map (fun r => r.id)).Nodup) :
    (handleOnline ok t s).storage.offlineQueue =
      s.storage.offlineQueue.filter (fun r => !(ok r)) ∧
    (handleOnline ok t s).remote.docs =
      s.remote.docs ++
        drainDocs s.remote.nextDocId t (s.storage.offlineQueue.filter ok) := by
  refine ⟨handleOnline_queue_filter ok t s hnd, ?_⟩
  rw [handleOnline,
    (processQueued_remote ok t s.storage.getQueuedMessages s).1]
  rfl

/-- Concrete queue records used by the drain scenarios below. -/
def exRec1 : QueueRecord :=
  ⟨1, "hey", "alice", "bob", 5, "text", none, "alice_bob", "queued"⟩

def exRec2 : QueueRecord :=
  ⟨2, "yo", "alice", "carol", 6, "text", none, "alice_carol", "queued"⟩

def exRec3 : QueueRecord :=
  ⟨3, "pic", "alice", "dave", 7, "image", some "p.png", "alice_dave", "queued"⟩

/-- Concrete state for the failure-isolation scenario: three records queued
for three different conversations. -/
def exStateC3 : AppState := ⟨⟨[], 0⟩, ⟨[], [exRec1, exRec2, exRec3], 4⟩⟩

/-- Witness for C3: of three queued messages the third write fails; the two
others drain and are cleared while the third remains queued untouched. -/
theorem drain_failure_isolation_witness :
    (handleOnline (fun r => r.id != 3) 50 exStateC3).storage.offlineQueue =
      exStateC3.storage.offlineQueue.filter (fun r => !(r.id != 3)) ∧
    (handleOnline (fun r => r.id != 3) 50 exStateC3).remote.docs =
      exStateC3.remote.docs ++
        drainDocs exStateC3.remote.nextDocId 50
          (exStateC3.storage.offlineQueue.filter (fun r => r.id != 3)) :=
  drain_failure_isolation (fun r => r.id != 3) 50 exStateC3 (by decide)

/-- Two overlapping drain passes over the same queue.  `handleOnline` has no
in-progress guard, and it awaits `getQueuedMessages` before the write loop,
so when a second trigger (an `online` event or a service-worker
SYNC_QUEUED_MESSAGES message) fires during the first pass, the second
trigger's queue read can complete before the first pass clears any record;
both passes then process the same snapshot.  This is that earliest-read
interleaving of two `handleOnline` invocations. -/
def overlappingDrains (ok : QueueRecord → Bool) (t : Int) (s : AppState) :
    AppState :=
  processQueued ok t s.storage.getQueuedMessages
    (processQueued ok t s.storage.getQueuedMessages s)

/-- Concrete state for the overlap scenario: a single queued record. -/
def exStateC2 : AppState :=
  ⟨⟨[], 0⟩, ⟨[], [⟨1, "hi", "alice", "bob", 5, "text", none, "alice_bob",
    "queued"⟩], 2⟩⟩

/-- C2 counterexample: with one record queued, two overlapping drain passes
(both reading the queue before either clears it) write the record to the
remote store twice, while a single drain pass writes it once — the second
trigger is not coalesced, refuting the claimed concurrency invariant. -/
theorem overlapping_drains_double_send_cex :
    ((overlappingDrains (fun _ => true) 9 exStateC2).remote.docs.countP
      (fun d => d.content == "hi" && d.senderId == "alice")) = 2 ∧
    ((handleOnline (fun _ => true) 9 exStateC2).remote.docs.countP
      (fun d => d.content == "hi" && d.senderId == "alice")) = 1 := by
  decide

/-- C2 (amended): the code has no overlap guard, so two genuinely
overlapping passes can double-send (see the counterexample); what does hold
is that running the drain twice in immediate succession — the second pass
starting after the first finished — produces no duplicate remote messages:
when every write of the first pass succeeds, the second pass observes the
already-cleared queue and changes nothing. -/
theorem drain_twice_sequential_no_duplicates (ok : QueueRecord → Bool)
    (t t' : Int) (s : AppState) (hok : ∀ r, ok r = true) :
    handleOnline ok t' (handleOnline ok t s) = handleOnline ok t s := by
  have hempty : (handleOnline ok t s).storage.getQueuedMessages = [] :=
    handleOnline_queue_empty ok t s hok
  rw [handleOnline, hempty]
  rfl

/-- Witness for the amended C2 at the concrete one-record state. -/
theorem drain_twice_sequential_no_duplicates_witness :
    handleOnline (fun _ => true) 11 (handleOnline (fun _ => true) 9 exStateC2)
      = handleOnline (fun _ => true) 9 exStateC2 :=
  drain_twice_sequential_no_duplicates (fun _ => true) 9 11 exStateC2
    (fun _ => rfl)

/-- Overwriting by key inside the messages store leaves records of other
conversations untouched, provided the key does not belong to a record of
another conversation. -/
lemma map_put_filter_ne (m : CachedMsg) (C : String) (hmC : m.chatId = C) :
    ∀ db : List CachedMsg, (∀ r ∈ db, r.chatId ≠ C → r.id ≠ m.id) →
      (db.map (fun r => if r.id == m.id then m else r)).filter
          (fun r => r.chatId != C) =
        db.filter (fun r => r.chatId != C) := by
  intro db
  induction db with
  | nil => intro _; rfl
  | cons a db ih =>
    intro hid
    have hidtail : ∀ r ∈ db, r.chatId ≠ C → r.id ≠ m.id :=
      fun r hr => hid r (List.mem_cons_of_mem a hr)
    by_cases ha : a.id = m.id
    · have haC : a.chatId = C := by
        by_contra hne
        exact hid a (List.mem_cons_self a db) hne ha
      have hbeq : (a.id == m.id) = true := beq_iff_eq.mpr ha
      have h1 : (m.chatId != C) = false := by simp [hmC]
      have h2 : (a.chatId != C) = false := by simp [haC]
      simp only [List.map_cons, hbeq, if_true, List.filter_cons, h1, h2,
        Bool.false_eq_true, if_false]
      exact ih hidtail
    · have hbeq : (a.id == m.id) = false := by simp [ha]
      simp only [List.map_cons, hbeq, Bool.false_eq_true, if_false,
        List.filter_cons]
      rw [ih hidtail]

/-- IndexedDB put of a conversation-C record changes nothing retrievable
under other conversations, provided its key does not collide with a record
of another conversation. -/
lemma putMessage_filter_ne (db : List CachedMsg) (m : CachedMsg) (C : String)
    (hmC : m.chatId = C)
    (hid : ∀ r ∈ db, r.chatId ≠ C → r.id ≠ m.id) :
    (putMessage db m).filter (fun r => r.chatId != C) =
      db.filter (fun r => r.chatId != C) := by
  unfold putMessage
  by_cases hany : db.any (fun r => r.id == m.id) = true
  · rw [if_pos hany]
    exact map_put_filter_ne m C hmC db hid
  · rw [if_neg hany, List.filter_append]
    have hm : [m].filter (fun r => r.chatId != C) = [] := by simp [hmC]
    rw [hm, List.append_nil]

/-- Folding conversation-C puts over the store leaves the records of other
conversations exactly as they were. -/
lemma foldl_put_filter_ne (C : String) (msgs : List CachedMsg) :
    ∀ db : List CachedMsg,
      (∀ m ∈ msgs, ∀ r ∈ db, r.chatId ≠ C → r.id ≠ m.id) →
      (msgs.foldl (fun d m => putMessage d { m with chatId := C }) db).filter
          (fun r => r.chatId != C) =
        db.filter (fun r => r.chatId != C) := by
  induction msgs with
  | nil => intro db _; rfl
  | cons m msgs ih =>
    intro db hid
    simp only [List.foldl_cons]
    have hput : (putMessage db { m with chatId := C }).filter
        (fun r => r.chatId != C) = db.filter (fun r => r.chatId != C) :=
      putMessage_filter_ne db { m with chatId := C } C rfl
        (fun r hr hrC => hid m (List.mem_cons_self m msgs) r hr hrC)
    have hid' : ∀ m' ∈ msgs, ∀ r ∈ putMessage db { m with chatId := C },
        r.chatId ≠ C → r.id ≠ m'.id := by
      intro m' hm' r hr hrC
      have hrfilter : r ∈ (putMessage db { m with chatId := C }).filter
          (fun r => r.chatId != C) :=
        List.mem_filter.mpr ⟨hr, bne_iff_ne.mpr hrC⟩
      rw [hput] at hrfilter
      exact hid m' (List.mem_cons_of_mem m hm')
        r (List.mem_filter.mp hrfilter).1 hrC
    rw [ih _ hid', hput]

/-- IndexedDB put is a plain append when the key is fresh for the store. -/
lemma putMessage_append (db : List CachedMsg) (m : CachedMsg)
    (hfresh : ∀ r ∈ db, r.id ≠ m.id) :
    putMessage db m = db ++ [m] := by
  unfold putMessage
  have hnone : ¬ (db.any (fun r => r.id == m.id) = true) := by
    intro hx
    obtain ⟨r, hr, hbeq⟩ := List.any_eq_true.mp hx
    exact hfresh r hr (beq_iff_eq.mp hbeq)
  rw [if_neg hnone]

/-- Folding puts of records with pairwise distinct keys, all fresh for the
store, appends them in order. -/
lemma foldl_put_append (C : String) (msgs : List CachedMsg) :
    ∀ db : List CachedMsg,
      (msgs.map (fun m => m.id)).Nodup →
      (∀ m ∈ msgs, ∀ r ∈ db, r.id ≠ m.id) →
      msgs.foldl (fun d m => putMessage d { m with chatId := C }) db =
        db ++ msgs.map (fun m => { m with chatId := C }) := by
  induction msgs with
  | nil => intro db _ _; simp
  | cons m msgs ih =>
    intro db hnd hfresh
    simp only [List.foldl_cons, List.map_cons]
    have hput : putMessage db { m with chatId := C } =
        db ++ [{ m with chatId := C }] :=
      putMessage_append db _
        (fun r hr => hfresh m (List.mem_cons_self m msgs) r hr)
    rw [hput]
    have hnd' : (msgs.map (fun m => m.id)).Nodup := (List.nodup_cons.mp hnd).2
    have hm_not : m.id ∉ msgs.map (fun m => m.id) := (List.nodup_cons.mp hnd).1
    have hfresh' : ∀ m' ∈ msgs, ∀ r ∈ db ++ [{ m with chatId := C }],
        r.id ≠ m'.id := by
      intro m' hm' r hr
      rcases List.mem_append.mp hr with hr | hr
      · exact hfresh m' (List.mem_cons_of_mem m hm') r hr
      · have hrm : r = { m with chatId := C } := List.mem_singleton.mp hr
        subst hrm
        intro heq
        exact hm_not (heq ▸ List.mem_map_of_mem (fun m => m.id) hm')
    have hrec := ih (db ++ [{ m with chatId := C }]) hnd' hfresh'
    rw [hrec, List.append_assoc]
    rfl

/-- storeMessages with fresh, pairwise distinct keys: the store becomes the
other conversations' records followed by the given set, re-tagged to the
conversation. -/
lemma storeMessages_spec (st : OfflineStorage) (C : String)
    (msgs : List CachedMsg)
    (hnd : (msgs.map (fun m => m.id)).Nodup)
    (hfresh : ∀ m ∈ msgs, ∀ r ∈ st.messages, r.chatId ≠ C → r.id ≠ m.id) :
    (st.storeMessages C msgs).messages =
      st.messages.filter (fun r => r.chatId != C) ++
        msgs.map (fun m => { m with chatId := C }) := by
  have hbase : ∀ m ∈ msgs, ∀ r ∈ st.messages.filter (fun r => r.chatId != C),
      r.id ≠ m.id := by
    intro m hm r hr
    have h1 : r ∈ st.messages := (List.mem_filter.mp hr).1
    have h2 : r.chatId ≠ C := bne_iff_ne.mp (List.mem_filter.mp hr).2
    exact hfresh m hm r h1 h2
  exact foldl_put_append C msgs _ hnd hbase

/-- C4 (amended): storeMessages replaces rather than merges: after
storeMessages(C, S1) then storeMessages(C, S2), exactly the messages of S2
(re-tagged to C, in timestamp order) are retrievable via getMessages(C) — no
message of S1 absent from S2 survives — and records cached under other
conversation ids are unaffected, provided S2's message ids are pairwise
distinct and neither S1's nor S2's ids collide with a record cached under
another conversation (IndexedDB put is keyed globally by message id). -/
theorem storeMessages_replaces (st : OfflineStorage) (C : String)
    (S1 S2 : List CachedMsg)
    (hnd : (S2.map (fun m => m.id)).Nodup)
    (h1 : ∀ m ∈ S1, ∀ r ∈ st.messages, r.chatId ≠ C → r.id ≠ m.id)
    (h2 : ∀ m ∈ S2, ∀ r ∈ st.messages, r.chatId ≠ C → r.id ≠ m.id) :
    ((st.storeMessages C S1).storeMessages C S2).getMessages C =
      List.insertionSort tsLe (S2.map (fun m => { m with chatId := C })) ∧
    ((st.storeMessages C S1).storeMessages C S2).messages.filter
        (fun r => r.chatId != C) =
      st.messages.filter (fun r => r.chatId != C) := by
  have hbase1 : ∀ m ∈ S1, ∀ r ∈ st.messages.filter (fun r => r.chatId != C),
      r.chatId ≠ C → r.id ≠ m.id := by
    intro m hm r hr hrC
    exact h1 m hm r (List.mem_filter.mp hr).1 hrC
  have hst1other : (st.storeMessages C S1).messages.filter
      (fun r => r.chatId != C) = st.messages.filter (fun r => r.chatId != C) := by
    show (S1.foldl (fun db m => putMessage db { m with chatId := C })
        (st.messages.filter (fun r => r.chatId != C))).filter
        (fun r => r.chatId != C) = _
    rw [foldl_put_filter_ne C S1 _ hbase1]
    exact List.filter_eq_self.mpr fun a ha => (List.mem_filter.mp ha).2
  have h2' : ∀ m ∈ S2, ∀ r ∈ (st.storeMessages C S1).messages,
      r.chatId ≠ C → r.id ≠ m.id := by
    intro m hm r hr hrC
    have hrf : r ∈ (st.storeMessages C S1).messages.filter
        (fun r => r.chatId != C) :=
      List.mem_filter.mpr ⟨hr, bne_iff_ne.mpr hrC⟩
    rw [hst1other] at hrf
    exact h2 m hm r (List.mem_filter.mp hrf).1 hrC
  have hst2 : ((st.storeMessages C S1).storeMessages C S2).messages =
      (st.storeMessages C S1).messages.filter (fun r => r.chatId != C) ++
        S2.map (fun m => { m with chatId := C }) :=
    storeMessages_spec _ C S2 hnd h2'
  rw [hst1other] at hst2
  constructor
  · show List.insertionSort tsLe
        (((st.storeMessages C S1).storeMessages C S2).messages.filter
          (fun r => r.chatId == C)) = _
    rw [hst2, List.filter_append]
    have hbase0 : (st.messages.filter (fun r => r.chatId != C)).filter
        (fun r => r.chatId == C) = [] := by
      refine List.filter_eq_nil_iff.mpr ?_
      intro r hr
      have hne := (List.mem_filter.mp hr).2
      simp only [beq_iff_eq]
      exact bne_iff_ne.mp hne
    have hS2f : (S2.map (fun m => { m with chatId := C })).filter
        (fun r => r.chatId == C) = S2.map (fun m => { m with chatId := C }) := by
      refine List.filter_eq_self.mpr ?_
      intro a ha
      obtain ⟨m, _, hm⟩ := List.mem_map.mp ha
      subst hm
      simp
    rw [hbase0, hS2f, List.nil_append]
  · rw [hst2, List.filter_append]
    have hb : (st.messages.filter (fun r => r.chatId != C)).filter
        (fun r => r.chatId != C) = st.messages.filter (fun r => r.chatId != C) :=
      List.filter_eq_self.mpr fun a ha => (List.mem_filter.mp ha).2
    have hS2n : (S2.map (fun m => { m with chatId := C })).filter
        (fun r => r.chatId != C) = [] := by
      refine List.filter_eq_nil_iff.mpr ?_
      intro r hr
      obtain ⟨m, _, hm⟩ := List.mem_map.mp hr
      subst hm
      simp
    rw [hb, hS2n, List.append_nil]

/-- Concrete store and message sets for the C4 witness. -/
def wDb0 : OfflineStorage :=
  ⟨[⟨"other1", "a_x", 2, "keep", "alice", "xavier", "text"⟩], [], 1⟩

def wS1 : List CachedMsg := [⟨"s1", "a_b", 4, "first", "alice", "bob", "text"⟩]

def wS2 : List CachedMsg :=
  [⟨"s2", "a_b", 6, "second", "bob", "alice", "text"⟩]

/-- Witness for the amended C4: a cached conversation "a_x" survives two
storeMessages calls for conversation "a_b" with disjoint sets, and only the
second set remains retrievable for "a_b". -/
theorem storeMessages_replaces_witness :
    ((wDb0.storeMessages "a_b" wS1).storeMessages "a_b" wS2).getMessages "a_b" =
      List.insertionSort tsLe
        (wS2.map (fun m => { m with chatId := "a_b" })) ∧
    ((wDb0.storeMessages "a_b" wS1).storeMessages "a_b"
        wS2).messages.filter (fun r => r.chatId != "a_b") =
      wDb0.messages.filter (fun r => r.chatId != "a_b") :=
  storeMessages_replaces wDb0 "a_b" wS1 wS2 (by decide) (by decide)
    (by decide)

/-- Concrete stores for the C4 counterexample: message id "m1" is first
cached under conversation "A"; conversation "B" is then replaced with a set
containing a message that reuses id "m1". -/
def cexDbA : OfflineStorage :=
  (⟨[], [], 1⟩ : OfflineStorage).storeMessages "A"
    [⟨"m1", "whatever", 3, "hello", "alice", "bob", "text"⟩]

def cexDbFinal : OfflineStorage :=
  (cexDbA.storeMessages "B" []).storeMessages "B"
    [⟨"m1", "B", 9, "clobber", "carol", "dave", "text"⟩]

/-- C4 counterexample: storeMessages("B", S1) then storeMessages("B", S2)
with S1 and S2 disjoint does not leave conversation "A" unaffected — the
IndexedDB put is keyed globally by message id, so S2's record with id "m1"
overwrites conversation "A"'s cached record, and getMessages("A") drops from
one message to none. -/
theorem storeMessages_cross_chat_cex :
    cexDbA.getMessages "A" =
      [⟨"m1", "A", 3, "hello", "alice", "bob", "text"⟩] ∧
    cexDbFinal.getMessages "A" = [] := by
  decide

/-- A message as rendered in the ChatWindow messages React state: live
snapshot documents carry their server doc id and no isQueued flag (modelled
false); queued messages carry the synthetic id "queued-" ++ queue id and
isQueued true. -/
structure DisplayMsg where
  id : String
  content : String
  senderId : String
  receiverId : String
  timestamp : Int
  type : String
  fileName : Option String
  chatId : String
  isQueued : Bool
deriving DecidableEq

/-- ChatWindow component state relevant to the send path: the remote store,
the OfflineStorage database and the rendered messages list. -/
structure ChatState where
  remote : Remote
  storage : OfflineStorage
  messages : List DisplayMsg
deriving DecidableEq

/-- The JS String.prototype.trim call of sendMessage: strips leading and
trailing whitespace. -/
def trimString (s : String) : String :=
  ⟨((s.data.dropWhile Char.isWhitespace).reverse.dropWhile
      Char.isWhitespace).reverse⟩

/-- `sendMessage` (ChatWindow.js): ignore empty (all-whitespace) input;
build the payload with a client timestamp (`new Date()`, the `now`
argument); when online attempt a direct addDoc with a server timestamp (on
success the rendered list is left for the live subscription to update); when
offline, or when the online write fails (the catch branch), persist via
queueMessage and append the message to the rendered list immediately with
the synthetic id "queued-" ++ queue id and the isQueued flag set.  `writeOk`
tells whether the direct addDoc succeeds. -/
def sendMessage (cs : ChatState) (chatId currentUserId receiverId : String)
    (newMessage : String) (isOnline writeOk : Bool) (now serverNow : Int) :
    ChatState :=
  if trimString newMessage = "" then cs
  else
    let messageData : MsgData :=
      ⟨trimString newMessage, currentUserId, receiverId, now, "text", none,
       chatId⟩
    if isOnline && writeOk then
      let rm' := cs.remote.addDoc chatId messageData.content currentUserId
        receiverId serverNow "text" none
      { cs with remote := rm' }
    else
      let qr := cs.storage.queueMessage messageData now
      let shown : DisplayMsg :=
        ⟨"queued-" ++ toString qr.1.id, messageData.content, currentUserId,
         receiverId, now, "text", none, chatId, true⟩
      { cs with storage := qr.2, messages := cs.messages ++ [shown] }

/-- C6: Send-path fallback: for a submitted non-empty message, when the
device is offline or the direct remote write fails, the message is persisted
via queueMessage with the client-assigned timestamp and status "queued",
rendered immediately with the synthetic prefixed local id and the isQueued
flag set, and the remote store is unchanged — the send lands in the queue
rather than disappearing. -/
theorem sendMessage_fallback (cs : ChatState)
    (chatId uid rid msg : String) (isOnline writeOk : Bool)
    (now serverNow : Int)
    (hne : trimString msg ≠ "") (hfail : isOnline = false ∨ writeOk = false) :
    (sendMessage cs chatId uid rid msg isOnline writeOk
        now serverNow).storage.offlineQueue =
      cs.storage.offlineQueue ++
        [{ id := cs.storage.nextQueueId, content := trimString msg,
           senderId := uid, receiverId := rid, timestamp := now,
           type := "text", fileName := none, chatId := chatId,
           status := "queued" }] ∧
    (sendMessage cs chatId uid rid msg isOnline writeOk
        now serverNow).messages =
      cs.messages ++
        [{ id := "queued-" ++ toString cs.storage.nextQueueId,
           content := trimString msg, senderId := uid, receiverId := rid,
           timestamp := now, type := "text", fileName := none,
           chatId := chatId, isQueued := true }] ∧
    (sendMessage cs chatId uid rid msg isOnline writeOk
        now serverNow).remote = cs.remote := by
  have hcond : (isOnline && writeOk) = false := by
    rcases hfail with h | h <;> simp [h]
  unfold sendMessage
  rw [if_neg hne, hcond]
  exact ⟨rfl, rfl, rfl⟩

/-- Witness for C6: a concrete offline send of " hi  " (trimmed to "hi"). -/
theorem sendMessage_fallback_witness :
    (sendMessage ⟨⟨[], 0⟩, ⟨[], [], 1⟩, []⟩ "alice_bob" "alice" "bob"
        " hi  " false true 42 99).storage.offlineQueue =
      [] ++
        [{ id := 1, content := trimString " hi  ", senderId := "alice",
           receiverId := "bob", timestamp := 42, type := "text",
           fileName := none, chatId := "alice_bob", status := "queued" }] ∧
    (sendMessage ⟨⟨[], 0⟩, ⟨[], [], 1⟩, []⟩ "alice_bob" "alice" "bob"
        " hi  " false true 42 99).messages =
      [] ++
        [{ id := "queued-" ++ toString 1, content := trimString " hi  ",
           senderId := "alice", receiverId := "bob", timestamp := 42,
           type := "text", fileName := none, chatId := "alice_bob",
           isQueued := true }] ∧
    (sendMessage ⟨⟨[], 0⟩, ⟨[], [], 1⟩, []⟩ "alice_bob" "alice" "bob"
        " hi  " false true 42 99).remote = ⟨[], 0⟩ :=
  sendMessage_fallback ⟨⟨[], 0⟩, ⟨[], [], 1⟩, []⟩ "alice_bob" "alice" "bob"
    " hi  " false true 42 99 (by decide) (Or.inl rfl)

/-- loadAndDisplayQueuedMessages converts a still-queued record for display:
the synthetic unique id "queued-" ++ queue id and the isQueued flag. -/
def queuedToDisplay (r : QueueRecord) : DisplayMsg :=
  ⟨"queued-" ++ toString r.id, r.content, r.senderId, r.receiverId,
   r.timestamp, r.type, r.fileName, r.chatId, true⟩

/-- The merged list the onSnapshot handler of ChatWindow.js renders: it
replaces the messages state with the fetched snapshot and then
loadAndDisplayQueuedMessages appends the still-queued records of this chat,
converted for display. -/
def snapshotMerge (fetched : List DisplayMsg) (queue : List QueueRecord)
    (chatId : String) : List DisplayMsg :=
  fetched ++ (queue.filter (fun r => r.chatId == chatId)).map queuedToDisplay

/-- The onSnapshot handler's conversion of a fetched document to a rendered
message: `{ id: doc.id, ...doc.data() }` — the server-assigned doc id is the
display id (rendered as its string form here) and fetched documents carry no
isQueued flag. -/
def docToDisplay (d : RemoteDoc) : DisplayMsg :=
  ⟨toString d.id, d.content, d.senderId, d.receiverId, d.timestamp, d.type,
   d.fileName, d.chatId, false⟩

/-- Mid-drain interleaving state for the display-merge scenario: the drain's
addDoc for the single queued record has committed, so a subscription update
already carries the live counterpart, but clearQueuedMessage — a separate
awaited step after the addDoc in handleOnline — has not yet run, so the
record is still in the queue when loadAndDisplayQueuedMessages reads it. -/
def cexMidDrain : AppState :=
  { remote := Remote.addDoc ⟨[], 0⟩ "alice_bob" "hi" "alice" "bob" 100
      "text" none,
    storage := ⟨[], [⟨1, "hi", "alice", "bob", 5, "text", none, "alice_bob",
      "queued"⟩], 2⟩ }

/-- C7 counterexample: a message queued while offline has been confirmed to
the remote store (its live counterpart is in the subscription update), yet
because its queue record has not been cleared when the merge runs, the
merged displayed list contains the message twice —
loadAndDisplayQueuedMessages appends every still-queued record
unconditionally and performs no dedup against the live set. -/
theorem merged_display_duplicate_cex :
    (snapshotMerge (cexMidDrain.remote.docs.map docToDisplay)
        cexMidDrain.storage.offlineQueue "alice_bob").countP
      (fun d => d.content == "hi" && d.senderId == "alice" &&
        d.receiverId == "bob") = 2 := by
  decide

/-- C7 (amended): the snapshot merge performs no dedup against the live set
— it appends every still-queued record of the conversation, each exactly
once, flagged isQueued (first conjunct) — so uniqueness of a confirmed
message holds only once the drain has cleared its queue record: after a
drain pass (some records succeeding, some failing), a matcher satisfied
exactly once by the live snapshot and by no still-pending record's rendering
is satisfied exactly once by the merged list (second conjunct). -/
theorem merged_display_after_drain (s : AppState) (ok : QueueRecord → Bool)
    (t : Int) (fetched : List DisplayMsg) (chatId : String)
    (p : DisplayMsg → Bool)
    (hnd : (s.storage.offlineQueue.map (fun q => q.id)).Nodup)
    (hcount : fetched.countP p = 1)
    (hqp : ∀ q ∈ s.storage.offlineQueue, ok q = false →
      p (queuedToDisplay q) = false) :
    snapshotMerge fetched (handleOnline ok t s).storage.offlineQueue chatId =
      fetched ++
        ((s.storage.offlineQueue.filter (fun q => !(ok q))).filter
          (fun q => q.chatId == chatId)).map queuedToDisplay ∧
    (snapshotMerge fetched (handleOnline ok t s).storage.offlineQueue
        chatId).countP p = 1 := by
  have hq := handleOnline_queue_filter ok t s hnd
  constructor
  · rw [snapshotMerge, hq]
  · rw [snapshotMerge, hq, List.countP_append, hcount]
    have happ : (((s.storage.offlineQueue.filter (fun q => !(ok q))).filter
        (fun q => q.chatId == chatId)).map queuedToDisplay).countP p = 0 := by
      rw [List.countP_eq_zero]
      intro d hd
      obtain ⟨q, hq1, hq2⟩ := List.mem_map.mp hd
      have hq3 : q ∈ s.storage.offlineQueue.filter (fun q => !(ok q)) :=
        (List.mem_filter.mp hq1).1
      have hq4 : q ∈ s.storage.offlineQueue := (List.mem_filter.mp hq3).1
      have hq5 : ok q = false := by
        have hfail := (List.mem_filter.mp hq3).2
        revert hfail; cases ok q <;> simp
      rw [← hq2]
      simp [hqp q hq4 hq5]
    rw [happ]

/-- Concrete state for the C7 witness: two records queued for the same
conversation; the first drains successfully, the second's write fails and it
stays pending. -/
def exStateC7 : AppState :=
  ⟨⟨[], 0⟩, ⟨[], [⟨1, "hi", "alice", "bob", 5, "text", none, "alice_bob",
    "queued"⟩, ⟨2, "yo", "alice", "bob", 6, "text", none, "alice_bob",
    "queued"⟩], 3⟩⟩

/-- Witness for the amended C7: after the partial drain the merged list is
the live snapshot (holding the confirmed "hi" once) followed by exactly the
one still-pending "yo" record, and "hi" is displayed exactly once. -/
theorem merged_display_after_drain_witness :
    snapshotMerge
        [⟨"0", "hi", "alice", "bob", 100, "text", none, "alice_bob", false⟩]
        (handleOnline (fun r => r.id == 1) 100
          exStateC7).storage.offlineQueue "alice_bob" =
      [⟨"0", "hi", "alice", "bob", 100, "text", none, "alice_bob", false⟩] ++
        ((exStateC7.storage.offlineQueue.filter (fun q => !(q.id == 1))).filter
          (fun q => q.chatId == "alice_bob")).map queuedToDisplay ∧
    (snapshotMerge
        [⟨"0", "hi", "alice", "bob", 100, "text", none, "alice_bob", false⟩]
        (handleOnline (fun r => r.id == 1) 100
          exStateC7).storage.offlineQueue "alice_bob").countP
      (fun d => d.content == "hi") = 1 :=
  merged_display_after_drain exStateC7 (fun r => r.id == 1) 100
    [⟨"0", "hi", "alice", "bob", 100, "text", none, "alice_bob", false⟩]
    "alice_bob" (fun d => d.content == "hi") (by decide) (by decide)
    (by decide)
